import Mathlib

/-!
# go-demo: a TCP liveness prober (`main.go`)

A shallow embedding of the configuration loader (`loadConfig`, `getEnv`,
`getEnvAsInt`, `loadEPFile`), the port prober (`testPort`) and the poll
scheduler (`checkEndpoints`, `pollEndpoints`) of `main.go`, together with the
properties the specification states about them.

Modelling conventions.

* A Go `string` is modelled as a list of Unicode code points (`GoString`), that
  is, as valid UTF-8 text.  The byte-level operations the program uses
  (`strings.Split` on the one-byte separators `"\n"` and `" "`, the comparison
  `epdata[:1] != "#"`, `strings.HasPrefix(ep, "#")`, `len(..) == 0`) agree with
  their character-level counterparts on such text, because the bytes of a
  multi-byte UTF-8 sequence are never ASCII.
* A run-time panic (slice or index out of range) is the result `none`.
* The outside world (environment, TCP dial outcome, clock) is an input.
-/

/-- A Go string, as the sequence of its code points. -/
abbrev GoString := List Char

namespace unicode

/-- Go `unicode.IsSpace`: the Latin-1 spaces `'\t' '\n' '\v' '\f' '\r' ' '`,
U+0085, U+00A0, and the other code points of the `White_Space` property. -/
def IsSpace (r : Char) : Bool :=
  r.toNat == 0x09 || r.toNat == 0x0A || r.toNat == 0x0B || r.toNat == 0x0C ||
  r.toNat == 0x0D || r.toNat == 0x20 || r.toNat == 0x85 || r.toNat == 0xA0 ||
  r.toNat == 0x1680 || (0x2000 ≤ r.toNat && r.toNat ≤ 0x200A) ||
  r.toNat == 0x2028 || r.toNat == 0x2029 || r.toNat == 0x202F ||
  r.toNat == 0x205F || r.toNat == 0x3000

end unicode

namespace strings

/-- Go `strings.Split(s, sep)` for a one-character separator: the pieces of `s`
between the occurrences of `sep`.  The result always has one more element than
there are separators in `s`; in particular `Split "" sep = [""]`. -/
def Split : GoString → Char → List GoString
  | [], _ => [[]]
  | c :: cs, sep =>
    if c = sep then [] :: Split cs sep
    else
      match Split cs sep with
      | [] => [[c]]
      | w :: ws => (c :: w) :: ws

/-- Go `strings.TrimSpace(s)`: `s` without its leading and trailing white
space (as `unicode.IsSpace` defines it). -/
def TrimSpace (s : GoString) : GoString :=
  (((s.dropWhile unicode.IsSpace).reverse).dropWhile unicode.IsSpace).reverse

/-- Go `strings.HasPrefix(s, pre)`. -/
def HasPrefix (s pre : GoString) : Bool :=
  pre.isPrefixOf s

end strings

/-- The Go slice expression `s[:n]`: the first `n` elements of `s`, and a
run-time panic (`none`) when `n` exceeds `len(s)`. -/
def sliceTo (s : GoString) (n : Nat) : Option GoString :=
  if n ≤ s.length then some (s.take n) else none

/-- The loop of `loadEPFile` over the remaining lines, with `retSlice` as the
accumulator.  The condition is Go's short-circuit conjunction: `epdata[:1]` is
evaluated only when the trimmed line is non-empty. -/
def loadEPFile.loop : List GoString → List GoString → Option (List GoString)
  | [], retSlice => some retSlice
  | epdata :: rest, retSlice =>
    if (strings.TrimSpace epdata).length ≠ 0 then
      match sliceTo epdata 1 with
      | none => none
      | some pre =>
        if pre ≠ ['#'] then
          match (strings.Split epdata ' ')[0]? with
          | none => none
          | some firstWord => loadEPFile.loop rest (retSlice ++ [firstWord])
        else loadEPFile.loop rest retSlice
    else loadEPFile.loop rest retSlice

/-- Source `loadEPFile` (main.go:112-123). -/
def loadEPFile (epoints : GoString) : Option (List GoString) :=
  loadEPFile.loop (strings.Split epoints '\n') []

namespace strconv

/-- The decimal digits of `strconv.Atoi`: the value of a string of ASCII
digits, read left to right onto the accumulator `n`; `none` (a syntax error)
at the first character that is not a digit. -/
def digits : List Char → Nat → Option Nat
  | [], n => some n
  | c :: cs, n =>
    if '0' ≤ c ∧ c ≤ '9' then digits cs (n * 10 + (c.toNat - '0'.toNat)) else none

/-- Go `strconv.Atoi` for a 64-bit `int`: an optional sign `+` or `-`, then
at least one decimal digit and nothing else, the value within
`-2^63 .. 2^63 - 1`.  `none` stands for a non-nil `err` (syntax or range). -/
def Atoi (s : GoString) : Option Int :=
  match s with
  | [] => none
  | '-' :: ds =>
    if ds = [] then none
    else
      match digits ds 0 with
      | none => none
      | some n => if n ≤ 2 ^ 63 then some (-(n : Int)) else none
  | '+' :: ds =>
    if ds = [] then none
    else
      match digits ds 0 with
      | none => none
      | some n => if n < 2 ^ 63 then some (n : Int) else none
  | ds =>
    match digits ds 0 with
    | none => none
    | some n => if n < 2 ^ 63 then some (n : Int) else none

end strconv

/-- The process environment, as `os.LookupEnv` sees it: `none` when the
variable is not set. -/
abbrev Env := GoString → Option GoString

/-- Source `getEnv` (main.go:94-100). -/
def getEnv (env : Env) (key : GoString) (defaultVal : GoString) : GoString :=
  match env key with
  | some value => value
  | none => defaultVal

/-- Source `getEnvAsInt` (main.go:103-110). -/
def getEnvAsInt (env : Env) (name : GoString) (defaultVal : Int) : Int :=
  let valueStr := getEnv env name []
  match strconv.Atoi valueStr with
  | some value => value
  | none => defaultVal

/-- Source `pConfig` (main.go:19-26). -/
structure pConfig where
  timeout : Int
  nodeIP : GoString
  clusterName : GoString
  webhookUrl : GoString
  rescan : Int
  endpoints : List GoString

/-- Source `loadConfig` (main.go:59-68).  The only call that could panic is
`loadEPFile`. -/
def loadConfig (env : Env) : Option pConfig :=
  match loadEPFile (getEnv env "ENDPOINTS".toList []) with
  | none => none
  | some eps =>
    some
      { timeout := getEnvAsInt env "TIMEOUT".toList 1
        nodeIP := getEnv env "NODEIP".toList []
        clusterName := getEnv env "CLUSTERNAME".toList []
        webhookUrl := getEnv env "WEBHOOKURL".toList []
        rescan := getEnvAsInt env "RESCAN".toList 30
        endpoints := eps }

/-- Conversion of an integer to Go `int64` (two's complement wrap-around). -/
def wrapInt64 (x : Int) : Int :=
  (x + 2 ^ 63) % 2 ^ 64 - 2 ^ 63

/-- The Go expression `time.Duration(n) * time.Second`, in nanoseconds. -/
def seconds (n : Int) : Int :=
  wrapInt64 (wrapInt64 n * 1000000000)

/-- The network and the clock, as `testPort` sees them.  `DialTimeout` is the
outcome of `net.DialTimeout("tcp", endpoint, timeOut)`: `none` when `err` is
nil, and the text of the error otherwise.  `now` is the text of
`time.Now().Format("2006-01-02-15:04:05")`. -/
structure Net where
  DialTimeout : GoString → Int → Option GoString
  now : GoString

/-- Source `testPort` (main.go:126-136).  `nodeIP` is the global `p.nodeIP`. -/
def testPort (nodeIP : GoString) (net : Net) (endpoint : GoString) (tout : Int) :
    Bool × GoString :=
  let timeOut := seconds tout
  match net.DialTimeout endpoint timeOut with
  | some err =>
    let errmsg := net.now ++ (" Node(".toList ++ nodeIP ++
      ") *Error*: No Connection to \x27".toList ++ endpoint ++ "\x27 -- ".toList ++ err)
    (true, errmsg)
  | none => (false, "Success".toList)

/-- What the scheduler does that is visible from outside, in program order. -/
inductive Event where
  | log (msg : GoString)
  | testPort (endpoint : GoString) (tout : Int)
  | gaugeSet (v : Int)
  | sleep (d : Int)
  deriving DecidableEq

/-- The state the scheduler acts on: the value of the global `gauge`, and the
events so far. -/
structure Sys where
  gauge : Int
  trace : List Event
  deriving DecidableEq

/-- Append one event to the trace. -/
def Sys.emit (st : Sys) (e : Event) : Sys :=
  { st with trace := st.trace ++ [e] }

/-- Go `gauge.Set(v)`. -/
def Sys.gaugeSet (st : Sys) (v : Int) : Sys :=
  { gauge := v, trace := st.trace ++ [Event.gaugeSet v] }

/-- The loop of `checkEndpoints` over the remaining endpoints. -/
def checkEndpoints.loop (p : pConfig) (net : Net) : List GoString → Sys → Option Sys
  | [], st => some st
  | ep :: rest, st =>
    if ep.length = 0 then checkEndpoints.loop p net rest st
    else if strings.HasPrefix ep ['#'] then checkEndpoints.loop p net rest st
    else
      match (strings.Split ep ' ')[0]? with
      | none => none
      | some host =>
        let st1 := st.emit (Event.log ("Checking ".toList ++ host))
        let st2 := st1.emit (Event.testPort host p.timeout)
        match testPort p.nodeIP net host p.timeout with
        | (true, errmsg) =>
          let st3 := st2.emit (Event.log ("Failed ".toList ++ errmsg ++ ['\n']))
          checkEndpoints.loop p net rest (st3.gaugeSet 0)
        | (false, _) =>
          let st3 := st2.gaugeSet 1
          checkEndpoints.loop p net rest (st3.emit (Event.log " - Success\n".toList))

/-- Source `checkEndpoints` (main.go:148-184), over the global configuration
`p`. -/
def checkEndpoints (p : pConfig) (net : Net) (st : Sys) : Option Sys :=
  checkEndpoints.loop p net p.endpoints st

/-- One iteration of the loop of `pollEndpoints` (main.go:187-192): the call
of `checkEndpoints` is commented out in the source, so the body logs and
sleeps. -/
def pollEndpoints.iteration (p : pConfig) (st : Sys) : Sys :=
  (st.emit (Event.log "Polling\n".toList)).emit (Event.sleep (seconds p.rescan))

/-- Source `pollEndpoints` (main.go:186-193), cut after `n` iterations of its
endless loop. -/
def pollEndpoints (p : pConfig) : Nat → Sys → Sys
  | 0, st => st
  | n + 1, st => pollEndpoints p n (pollEndpoints.iteration p st)

/-- The endpoints `testPort` was called on, in the order of the calls. -/
def probed (trace : List Event) : List GoString :=
  trace.filterMap fun e =>
    match e with
    | Event.testPort endpoint _ => some endpoint
    | _ => none

/-! ## The endpoint list as the specification words it -/

/-- A blank line: empty, or white space only. -/
def isBlank (line : GoString) : Bool :=
  line.all unicode.IsSpace

/-- A comment line: its first character is `#`. -/
def isComment (line : GoString) : Bool :=
  line.head? == some '#'

/-- A line the loader keeps: neither blank nor a comment. -/
def isKept (line : GoString) : Bool :=
  !isBlank line && !isComment line

/-- The text of a line before its first space character (the whole line when
it has none). -/
def firstField (line : GoString) : GoString :=
  line.takeWhile (fun c => c != ' ')

/-- The endpoint list in the specification's words: split on newlines, drop the
blank lines and the comment lines, keep the first field of each remaining
line, in the order of the lines. -/
def loadEPFile_spec (epoints : GoString) : List GoString :=
  ((strings.Split epoints '\n').filter isKept).map firstField

/-- The first white-space-delimited token of the trimmed line. -/
def firstTokenTrimmed (line : GoString) : GoString :=
  (strings.TrimSpace line).takeWhile (fun c => !unicode.IsSpace c)

/-- The endpoint list with the token as the specification words it: split on
newlines, drop the blank lines and the comment lines, keep the first
white-space-delimited token of each remaining line, in the order of the
lines. -/
def loadEPFile_tokens (epoints : GoString) : List GoString :=
  ((strings.Split epoints '\n').filter isKept).map firstTokenTrimmed

/-- An entry `checkEndpoints` does not skip: not empty, not starting with `#`. -/
def isChecked (ep : GoString) : Bool :=
  ep.length != 0 && !strings.HasPrefix ep ['#']

/-! ## Lemmas on the string functions -/

theorem strings.Split_ne_nil (s : GoString) (sep : Char) : strings.Split s sep ≠ [] := by
  cases s with
  | nil => simp [strings.Split]
  | cons c cs =>
    simp only [strings.Split]
    split
    · simp
    · split <;> simp

theorem strings.Split_zero (s : GoString) (sep : Char) :
    (strings.Split s sep)[0]? = some (s.takeWhile (fun c => c != sep)) := by
  induction s with
  | nil => simp [strings.Split]
  | cons c cs ih =>
    simp only [strings.Split]
    by_cases h : c = sep
    · simp [h]
    · cases hs : strings.Split cs sep with
      | nil => exact absurd hs (strings.Split_ne_nil cs sep)
      | cons w ws =>
        rw [hs] at ih
        simp only [List.getElem?_cons_zero, Option.some.injEq] at ih
        simp [h, ih]

theorem strings.Split_of_not_mem (s : GoString) (sep : Char) (h : sep ∉ s) :
    strings.Split s sep = [s] := by
  induction s with
  | nil => simp [strings.Split]
  | cons c cs ih =>
    simp only [List.mem_cons, not_or] at h
    have hc : ¬ c = sep := fun e => h.1 e.symm
    simp [strings.Split, hc, ih h.2]

theorem strings.TrimSpace_eq_nil_iff (s : GoString) :
    strings.TrimSpace s = [] ↔ isBlank s = true := by
  unfold strings.TrimSpace isBlank
  rw [List.reverse_eq_nil_iff, List.dropWhile_eq_nil_iff, List.all_eq_true]
  constructor
  · intro h
    have hnil : s.dropWhile unicode.IsSpace = [] := by
      cases hd : s.dropWhile unicode.IsSpace with
      | nil => rfl
      | cons a t =>
        have hne : s.dropWhile unicode.IsSpace ≠ [] := by simp [hd]
        have h1 := List.head_dropWhile_not unicode.IsSpace s hne
        have h2 : unicode.IsSpace ((s.dropWhile unicode.IsSpace).head hne) = true :=
          h _ (List.mem_reverse.mpr (List.head_mem hne))
        rw [h1] at h2
        exact absurd h2 (by simp)
    exact List.dropWhile_eq_nil_iff.mp hnil
  · intro h x hx
    have hx1 : x ∈ s.dropWhile unicode.IsSpace := List.mem_reverse.mp hx
    exact h x ((List.dropWhile_sublist unicode.IsSpace).subset hx1)

theorem strings.TrimSpace_length_ne_zero_iff (s : GoString) :
    (strings.TrimSpace s).length ≠ 0 ↔ isBlank s = false := by
  rw [Ne, List.length_eq_zero, strings.TrimSpace_eq_nil_iff]
  simp

theorem sliceTo_one_cons (c : Char) (cs : GoString) : sliceTo (c :: cs) 1 = some [c] := by
  simp [sliceTo]

/-- One step of the loop of `loadEPFile`: a kept line appends its first field
to `retSlice`, any other line leaves `retSlice` as it is; no line panics. -/
theorem loadEPFile.loop_cons (epdata : GoString) (rest retSlice : List GoString) :
    loadEPFile.loop (epdata :: rest) retSlice =
      loadEPFile.loop rest
        (if isKept epdata then retSlice ++ [firstField epdata] else retSlice) := by
  rw [loadEPFile.loop]
  by_cases hb : isBlank epdata = true
  · have h0 : ¬ (strings.TrimSpace epdata).length ≠ 0 := by
      rw [strings.TrimSpace_length_ne_zero_iff]; simp [hb]
    simp [h0, isKept, hb]
  · have hb2 : isBlank epdata = false := by simpa using hb
    have h0 : (strings.TrimSpace epdata).length ≠ 0 :=
      (strings.TrimSpace_length_ne_zero_iff epdata).mpr hb2
    rw [if_pos h0]
    cases epdata with
    | nil => simp [isBlank] at hb2
    | cons c cs =>
      rw [sliceTo_one_cons, strings.Split_zero]
      by_cases hc : c = '#'
      · simp [hc, isKept, isComment]
      · simp [hc, isKept, isComment, hb2, firstField]

theorem loadEPFile.loop_eq (lines retSlice : List GoString) :
    loadEPFile.loop lines retSlice =
      some (retSlice ++ (lines.filter isKept).map firstField) := by
  induction lines generalizing retSlice with
  | nil => simp [loadEPFile.loop]
  | cons l ls ih =>
    rw [loadEPFile.loop_cons, ih]
    by_cases hk : isKept l = true
    · simp [hk]
    · simp [hk]

theorem loadEPFile_eq (epoints : GoString) :
    loadEPFile epoints = some (loadEPFile_spec epoints) := by
  simp [loadEPFile, loadEPFile_spec, loadEPFile.loop_eq]

theorem firstField_split (line : GoString) :
    ∃ rest, line = firstField line ++ rest ∧ ' ' ∉ firstField line ∧
      (rest = [] ∨ rest.head? = some ' ') := by
  refine ⟨line.dropWhile (fun c => c != ' '), ?_, ?_, ?_⟩
  · exact (List.takeWhile_append_dropWhile _ line).symm
  · intro h
    have := List.mem_takeWhile_imp h
    simp at this
  · cases hd : line.dropWhile (fun c => c != ' ') with
    | nil => exact Or.inl rfl
    | cons a t =>
      right
      have hne : line.dropWhile (fun c => c != ' ') ≠ [] := by simp [hd]
      have h1 := List.head_dropWhile_not (fun c => c != ' ') line hne
      simp only [hd, List.head_cons] at h1
      have : a = ' ' := by simpa using h1
      simp [this]

theorem firstField_append_space (tok rest : GoString) (h : ' ' ∉ tok) :
    firstField (tok ++ ' ' :: rest) = tok := by
  induction tok with
  | nil => simp [firstField]
  | cons c cs ih =>
    simp only [List.mem_cons, not_or] at h
    have hc : ¬ c = ' ' := fun e => h.1 e.symm
    have ih2 := ih h.2
    simp only [firstField] at ih2 ⊢
    simp [hc, ih2]

theorem isKept_iff (line : GoString) :
    isKept line = true ↔ isBlank line = false ∧ line.head? ≠ some '#' := by
  simp [isKept, isComment]

theorem hasPrefix_firstField (line : GoString) (h : line.head? ≠ some '#') :
    strings.HasPrefix (firstField line) ['#'] = false := by
  cases line with
  | nil => simp [firstField, strings.HasPrefix]
  | cons c cs =>
    have hc : ¬ c = '#' := by simpa using h
    have hc2 : ¬ '#' = c := fun e => hc e.symm
    by_cases hs : c = ' '
    · simp [firstField, strings.HasPrefix, hs]
    · simp [firstField, strings.HasPrefix, hs, List.isPrefixOf, hc2]

theorem firstField_length_eq_zero_iff (line : GoString) (h : isBlank line = false) :
    (firstField line).length = 0 ↔ line.head? = some ' ' := by
  cases line with
  | nil => simp [isBlank] at h
  | cons c cs =>
    by_cases hs : c = ' '
    · simp [firstField, hs]
    · simp [firstField, hs]

/-! ## Lemmas on the scheduler -/

theorem probed_append (a b : List Event) : probed (a ++ b) = probed a ++ probed b := by
  simp [probed, List.filterMap_append]

theorem getLast?_cons_match (h : GoString) (l : List GoString) :
    (h :: l).getLast? = some (match l.getLast? with | none => h | some x => x) := by
  cases l with
  | nil => rfl
  | cons a t =>
    rw [List.getLast?_cons_cons]
    cases ht : (a :: t).getLast? with
    | none => simp at ht
    | some x => rfl

/-- A run of the loop of `checkEndpoints` never panics; it appends events to
the trace, calls `testPort` on the first field of every entry it does not
skip, in order, and leaves in the gauge the outcome of the last call. -/
theorem checkEndpoints.loop_spec (p : pConfig) (net : Net) (eps : List GoString) (st : Sys) :
    ∃ st1 evs, checkEndpoints.loop p net eps st = some st1 ∧
      st1.trace = st.trace ++ evs ∧
      probed evs = (eps.filter isChecked).map firstField ∧
      st1.gauge =
        match (probed evs).getLast? with
        | none => st.gauge
        | some host => if (net.DialTimeout host (seconds p.timeout)).isSome then 0 else 1 := by
  induction eps generalizing st with
  | nil => exact ⟨st, [], by simp [checkEndpoints.loop], by simp, by simp [probed], by simp [probed]⟩
  | cons ep rest ih =>
    rw [checkEndpoints.loop]
    by_cases h0 : ep.length = 0
    · obtain ⟨st1, evs, h1, h2, h3, h4⟩ := ih st
      exact ⟨st1, evs, by simp [h0, h1], h2, by simp [h3, isChecked, h0], h4⟩
    · by_cases hp : strings.HasPrefix ep ['#'] = true
      · obtain ⟨st1, evs, h1, h2, h3, h4⟩ := ih st
        exact ⟨st1, evs, by simp [h0, hp, h1], h2, by simp [h3, isChecked, hp], h4⟩
      · have hk : isChecked ep = true := by simp [isChecked, h0, hp]
        rw [if_neg h0, if_neg hp, strings.Split_zero]
        change ∃ st1 evs, (match testPort p.nodeIP net (firstField ep) p.timeout with
          | (true, errmsg) => checkEndpoints.loop p net rest
              ((((st.emit (Event.log ("Checking ".toList ++ firstField ep))).emit
                (Event.testPort (firstField ep) p.timeout)).emit
                (Event.log ("Failed ".toList ++ errmsg ++ ['\n']))).gaugeSet 0)
          | (false, _) => checkEndpoints.loop p net rest
              ((((st.emit (Event.log ("Checking ".toList ++ firstField ep))).emit
                (Event.testPort (firstField ep) p.timeout)).gaugeSet 1).emit
                (Event.log " - Success\n".toList))) = some st1 ∧ _
        cases hd : net.DialTimeout (firstField ep) (seconds p.timeout) with
        | none =>
          have ht : testPort p.nodeIP net (firstField ep) p.timeout = (false, "Success".toList) := by
            simp [testPort, hd]
          rw [ht]
          obtain ⟨st1, evs, h1, h2, h3, h4⟩ := ih
            ((((st.emit (Event.log ("Checking ".toList ++ firstField ep))).emit
              (Event.testPort (firstField ep) p.timeout)).gaugeSet 1).emit
              (Event.log " - Success\n".toList))
          refine ⟨st1, [Event.log ("Checking ".toList ++ firstField ep),
            Event.testPort (firstField ep) p.timeout, Event.gaugeSet 1,
            Event.log " - Success\n".toList] ++ evs, h1, ?_, ?_, ?_⟩
          · rw [h2]; simp [Sys.emit, Sys.gaugeSet]
          · rw [probed_append, h3]; simp [probed, hk]
          · rw [h4, probed_append]
            have hp1 : probed [Event.log ("Checking ".toList ++ firstField ep),
                Event.testPort (firstField ep) p.timeout, Event.gaugeSet 1,
                Event.log " - Success\n".toList] = [firstField ep] := by simp [probed]
            rw [hp1, List.singleton_append, getLast?_cons_match]
            cases (probed evs).getLast? with
            | none => simp [hd, Sys.emit, Sys.gaugeSet]
            | some x => rfl
        | some err =>
          have ht : testPort p.nodeIP net (firstField ep) p.timeout =
              (true, net.now ++ (" Node(".toList ++ p.nodeIP ++
                ") *Error*: No Connection to \x27".toList ++ firstField ep ++
                "\x27 -- ".toList ++ err)) := by
            simp [testPort, hd]
          rw [ht]
          obtain ⟨st1, evs, h1, h2, h3, h4⟩ := ih
            ((((st.emit (Event.log ("Checking ".toList ++ firstField ep))).emit
              (Event.testPort (firstField ep) p.timeout)).emit
              (Event.log ("Failed ".toList ++ (net.now ++ (" Node(".toList ++ p.nodeIP ++
                ") *Error*: No Connection to \x27".toList ++ firstField ep ++
                "\x27 -- ".toList ++ err)) ++ ['\n']))).gaugeSet 0)
          refine ⟨st1, [Event.log ("Checking ".toList ++ firstField ep),
            Event.testPort (firstField ep) p.timeout,
            Event.log ("Failed ".toList ++ (net.now ++ (" Node(".toList ++ p.nodeIP ++
                ") *Error*: No Connection to \x27".toList ++ firstField ep ++
                "\x27 -- ".toList ++ err)) ++ ['\n']),
            Event.gaugeSet 0] ++ evs, h1, ?_, ?_, ?_⟩
          · rw [h2]; simp [Sys.emit, Sys.gaugeSet]
          · rw [probed_append, h3]; simp [probed, hk]
          · rw [h4, probed_append]
            have hp1 : probed [Event.log ("Checking ".toList ++ firstField ep),
                Event.testPort (firstField ep) p.timeout,
                Event.log ("Failed ".toList ++ (net.now ++ (" Node(".toList ++ p.nodeIP ++
                  ") *Error*: No Connection to \x27".toList ++ firstField ep ++
                  "\x27 -- ".toList ++ err)) ++ ['\n']),
                Event.gaugeSet 0] = [firstField ep] := by simp [probed]
            rw [hp1, List.singleton_append, getLast?_cons_match]
            cases (probed evs).getLast? with
            | none => simp [hd, Sys.emit, Sys.gaugeSet]
            | some x => rfl

/-! ## The configuration loader -/

/-- C1, as stated, fails: with the first token of a line read as the
specification words it (white-space-delimited, after trimming), the list of
the tokens of the kept lines is not what `loadEPFile` returns.  On the two
lines `" a:1"` and `"b:2"` the tokens are `"a:1"` and `"b:2"` and the loader
returns `""` and `"b:2"`; on the line `"a:1\tx y"` the token is `"a:1"` and
the loader returns `"a:1\tx"`. -/
theorem loadEPFile_not_first_tokens :
    (loadEPFile_tokens " a:1\nb:2".toList = ["a:1".toList, "b:2".toList] ∧
      loadEPFile " a:1\nb:2".toList = some ["".toList, "b:2".toList] ∧
      loadEPFile " a:1\nb:2".toList ≠ some (loadEPFile_tokens " a:1\nb:2".toList)) ∧
    (loadEPFile_tokens "a:1\tx y".toList = ["a:1".toList] ∧
      loadEPFile "a:1\tx y".toList = some ["a:1\tx".toList] ∧
      loadEPFile "a:1\tx y".toList ≠ some (loadEPFile_tokens "a:1\tx y".toList)) := by
  decide

/-- C1, amended: for every input string, `loadEPFile` returns the list obtained
by splitting the input on newlines, dropping every blank line (empty or white
space only) and every line whose first character is `#`, and mapping each
remaining line to the text that stands before its first space character (the
whole line when it has no space; the line is not trimmed), in the order of the
lines: no kept line is lost, duplicated or reordered. -/
theorem loadEPFile_filters_in_order (epoints : GoString) :
    loadEPFile epoints =
      some (((strings.Split epoints '\n').filter
        (fun line => !isBlank line && !isComment line)).map
          (fun line => line.takeWhile (fun c => c != ' '))) :=
  loadEPFile_eq epoints

/-- C2: a single line `tok ++ " " ++ rest`, where `tok` is non-empty, holds no
white space and does not start with `#`, loads as exactly `[tok]`. -/
theorem loadEPFile_token_before_comment (tok rest : GoString) (hne : tok ≠ [])
    (hws : ∀ c ∈ tok, unicode.IsSpace c = false) (hhash : tok.head? ≠ some '#')
    (hline : '\n' ∉ rest) :
    loadEPFile (tok ++ ' ' :: rest) = some [tok] := by
  have hsp : ' ' ∉ tok := fun h => by
    have := hws _ h
    simp [unicode.IsSpace] at this
  have hnl : '\n' ∉ tok := fun h => by
    have := hws _ h
    simp [unicode.IsSpace] at this
  have hsplit : strings.Split (tok ++ ' ' :: rest) '\n' = [tok ++ ' ' :: rest] := by
    apply strings.Split_of_not_mem
    simp [hnl, hline]
  obtain ⟨c, cs, rfl⟩ := List.exists_cons_of_ne_nil hne
  have hkept : isKept (c :: cs ++ ' ' :: rest) = true := by
    rw [isKept_iff]
    refine ⟨?_, by simpa using hhash⟩
    have hc := hws c (List.mem_cons_self c cs)
    simp [isBlank, hc]
  rw [loadEPFile_eq, loadEPFile_spec, hsplit]
  simp only [List.filter_cons, hkept, if_true, List.filter_nil, List.map_cons, List.map_nil]
  rw [firstField_append_space _ _ hsp]

/-- C2, at the line of the specification: `"10.0.0.5:1234 some comment"` loads
as `["10.0.0.5:1234"]`. -/
theorem loadEPFile_token_before_comment_witness :
    loadEPFile "10.0.0.5:1234 some comment".toList = some ["10.0.0.5:1234".toList] :=
  loadEPFile_token_before_comment "10.0.0.5:1234".toList "some comment".toList
    (by decide) (by decide) (by decide) (by decide)

/-- C3, as stated, fails: the loader neither trims the line nor ends the
endpoint at a tab or a carriage return.  The first white-space-delimited token
of the trimmed line is `"host:1"` for each of the three lines, and the loader
yields `""`, `"host:1\tx"` and `"host:1\r"`. -/
theorem loadEPFile_not_trimmed_token :
    (firstTokenTrimmed "  host:1 x".toList = "host:1".toList ∧
      loadEPFile "  host:1 x".toList = some ["".toList]) ∧
    (firstTokenTrimmed "host:1\tx".toList = "host:1".toList ∧
      loadEPFile "host:1\tx".toList = some ["host:1\tx".toList]) ∧
    (firstTokenTrimmed "host:1\r".toList = "host:1".toList ∧
      loadEPFile "host:1\r".toList = some ["host:1\r".toList]) := by
  decide

/-- C3, amended: for every kept (non-blank, non-comment) line of the endpoint
list, the endpoint `loadEPFile` produces is the text of the line, as it
stands, before its first space character, and the whole line when it has no
space: the kept lines and the endpoints correspond one to one, in order, each
line being its endpoint followed by nothing or by a space. -/
theorem loadEPFile_endpoint_is_first_field (epoints : GoString) :
    ∃ eps, loadEPFile epoints = some eps ∧
      List.Forall₂
        (fun line ep => ∃ rest, line = ep ++ rest ∧ ' ' ∉ ep ∧
          (rest = [] ∨ rest.head? = some ' '))
        ((strings.Split epoints '\n').filter isKept) eps := by
  refine ⟨loadEPFile_spec epoints, loadEPFile_eq epoints, ?_⟩
  rw [loadEPFile_spec, List.forall₂_map_right_iff, List.forall₂_same]
  intro line _
  exact firstField_split line

/-- C3, amended, at a list with a tab-separated line, a comment and a blank
line: the endpoints are `"host:1\tx"` and `"b:2"`. -/
theorem loadEPFile_endpoint_is_first_field_witness :
    ∃ eps, loadEPFile "host:1\tx y\n# c\n\nb:2 z".toList = some eps ∧
      List.Forall₂
        (fun line ep => ∃ rest, line = ep ++ rest ∧ ' ' ∉ ep ∧
          (rest = [] ∨ rest.head? = some ' '))
        ((strings.Split "host:1\tx y\n# c\n\nb:2 z".toList '\n').filter isKept) eps :=
  loadEPFile_endpoint_is_first_field "host:1\tx y\n# c\n\nb:2 z".toList

/-- C4, as stated, fails: a line that begins with a space loads as the empty
endpoint, which `checkEndpoints` then skips in its blank-entry branch (no call
of `testPort`, the gauge as it was). -/
theorem loadEPFile_empty_endpoint :
    loadEPFile " 10.0.0.5:1234".toList = some ["".toList] ∧
    (∃ eps, loadEPFile " 10.0.0.5:1234".toList = some eps ∧ ∃ ep ∈ eps, ep.length = 0) ∧
    checkEndpoints ⟨1, [], [], [], 30, [[]]⟩ ⟨fun _ _ => none, []⟩ ⟨0, []⟩ = some ⟨0, []⟩ :=
  ⟨by decide, ⟨["".toList], by decide, "".toList, by decide, by decide⟩, by decide⟩

/-- C4, amended: for every input string, no element of `loadEPFile` starts
with `#`, so the comment branch at the top of the loop of `checkEndpoints` is
never taken on a loaded configuration; and an element is empty only if its
line begins with a space, so the blank-entry branch is not taken either on a
list none of whose lines begins with a space. -/
theorem loadEPFile_no_comment_entries (epoints : GoString) :
    ∃ eps, loadEPFile epoints = some eps ∧
      (∀ ep ∈ eps, strings.HasPrefix ep ['#'] = false) ∧
      List.Forall₂ (fun line ep => (ep.length = 0 → line.head? = some ' '))
        ((strings.Split epoints '\n').filter isKept) eps := by
  refine ⟨loadEPFile_spec epoints, loadEPFile_eq epoints, ?_, ?_⟩
  · intro ep hep
    simp only [loadEPFile_spec, List.mem_map, List.mem_filter] at hep
    obtain ⟨line, ⟨_, hk⟩, rfl⟩ := hep
    exact hasPrefix_firstField line ((isKept_iff line).mp hk).2
  · rw [loadEPFile_spec, List.forall₂_map_right_iff, List.forall₂_same]
    intro line hl
    have hk := (List.mem_filter.mp hl).2
    exact (firstField_length_eq_zero_iff line ((isKept_iff line).mp hk).1).mp

/-- C4, amended, at a list with a comment line and a blank line. -/
theorem loadEPFile_no_comment_entries_witness :
    ∃ eps, loadEPFile "a:1 x\n# c\n\nb:2".toList = some eps ∧
      (∀ ep ∈ eps, strings.HasPrefix ep ['#'] = false) ∧
      List.Forall₂ (fun line ep => (ep.length = 0 → line.head? = some ' '))
        ((strings.Split "a:1 x\n# c\n\nb:2".toList '\n').filter isKept) eps :=
  loadEPFile_no_comment_entries "a:1 x\n# c\n\nb:2".toList

/-- C10: `loadEPFile` is total.  No input makes it panic; the slice
`epdata[:1]` is in range on every line whose trimmed text is non-empty, and
element 0 of `strings.Split(epdata, " ")` always exists. -/
theorem loadEPFile_total :
    (∀ epoints : GoString, (loadEPFile epoints).isSome = true) ∧
    (∀ epdata : GoString,
      (strings.TrimSpace epdata).length = 0 ∨ (sliceTo epdata 1).isSome = true) ∧
    (∀ epdata : GoString, ((strings.Split epdata ' ')[0]?).isSome = true) := by
  refine ⟨fun epoints => by simp [loadEPFile_eq], fun epdata => ?_, fun epdata => by
    simp [strings.Split_zero]⟩
  cases epdata with
  | nil => left; simp [strings.TrimSpace]
  | cons c cs => right; simp [sliceTo]

/-- C6: `loadConfig` never fails, and each field is the value of its
environment variable or the default: `timeout` is the integer `TIMEOUT`
parses to and 1 when it is unset or does not parse, `rescan` likewise with
`RESCAN` and 30, the three strings are the values of `NODEIP`, `CLUSTERNAME`
and `WEBHOOKURL` and `""` when unset, and `endpoints` is `loadEPFile` of
`ENDPOINTS`, of `""` when unset. -/
theorem loadConfig_defaults (env : Env) :
    ∃ cfg, loadConfig env = some cfg ∧
      cfg.timeout =
        (match env "TIMEOUT".toList with
          | some v => (match strconv.Atoi v with | some n => n | none => 1)
          | none => 1) ∧
      cfg.rescan =
        (match env "RESCAN".toList with
          | some v => (match strconv.Atoi v with | some n => n | none => 30)
          | none => 30) ∧
      cfg.nodeIP = (match env "NODEIP".toList with | some v => v | none => []) ∧
      cfg.clusterName = (match env "CLUSTERNAME".toList with | some v => v | none => []) ∧
      cfg.webhookUrl = (match env "WEBHOOKURL".toList with | some v => v | none => []) ∧
      some cfg.endpoints =
        loadEPFile (match env "ENDPOINTS".toList with | some v => v | none => []) := by
  have hint : ∀ (name : GoString) (d : Int), getEnvAsInt env name d =
      (match env name with
        | some v => (match strconv.Atoi v with | some n => n | none => d)
        | none => d) := by
    intro name d
    unfold getEnvAsInt getEnv
    cases env name with
    | none => simp [strconv.Atoi]
    | some v => rfl
  refine ⟨_, by rw [loadConfig, loadEPFile_eq], hint _ _, hint _ _, rfl, rfl, rfl, ?_⟩
  simp only [loadEPFile_eq, getEnv]

/-! ## The prober and the scheduler -/

/-- C8: with the dial outcome and the clock as inputs, `testPort` reports a
failure exactly when the dial returns an error; when the dial succeeds the
result is `(false, "Success")`; when it fails the message holds the endpoint,
the configured node address and the text of the error. -/
theorem testPort_outcome (nodeIP : GoString) (net : Net) (endpoint : GoString) (tout : Int) :
    ((testPort nodeIP net endpoint tout).1 = true ↔
      (net.DialTimeout endpoint (seconds tout)).isSome = true) ∧
    (match net.DialTimeout endpoint (seconds tout) with
      | none => testPort nodeIP net endpoint tout = (false, "Success".toList)
      | some err =>
        (testPort nodeIP net endpoint tout).1 = true ∧
        List.IsInfix endpoint (testPort nodeIP net endpoint tout).2 ∧
        List.IsInfix nodeIP (testPort nodeIP net endpoint tout).2 ∧
        List.IsInfix err (testPort nodeIP net endpoint tout).2) := by
  cases hd : net.DialTimeout endpoint (seconds tout) with
  | none => simp [testPort, hd]
  | some err =>
    simp only [testPort, hd, Option.isSome_some, true_iff, true_and]
    refine ⟨?_, ?_, ?_⟩
    · exact ⟨net.now ++ (" Node(".toList ++ nodeIP ++
        ") *Error*: No Connection to \x27".toList), "\x27 -- ".toList ++ err, by simp⟩
    · exact ⟨net.now ++ " Node(".toList, ") *Error*: No Connection to \x27".toList ++
        endpoint ++ "\x27 -- ".toList ++ err, by simp⟩
    · exact ⟨net.now ++ (" Node(".toList ++ nodeIP ++
        ") *Error*: No Connection to \x27".toList ++ endpoint ++ "\x27 -- ".toList), [],
        by simp⟩

/-- C5: `checkEndpoints` never panics, and afterwards, whatever the endpoint
list and the outcomes of the probes: when at least one endpoint was probed the
gauge is 0 if the last probed endpoint failed and 1 if it succeeded, whatever
happened to the earlier ones; when none was probed the gauge has its previous
value.  The probed endpoints are the first fields of the entries the loop
does not skip, in list order. -/
theorem checkEndpoints_gauge_is_last_probe (p : pConfig) (net : Net) (g : Int) :
    ∃ st, checkEndpoints p net ⟨g, []⟩ = some st ∧
      probed st.trace = (p.endpoints.filter isChecked).map firstField ∧
      st.gauge =
        match (probed st.trace).getLast? with
        | none => g
        | some host => if (net.DialTimeout host (seconds p.timeout)).isSome then 0 else 1 := by
  obtain ⟨st1, evs, h1, h2, h3, h4⟩ := checkEndpoints.loop_spec p net p.endpoints ⟨g, []⟩
  have ht : st1.trace = evs := by simpa using h2
  exact ⟨st1, h1, by rw [ht, h3], by rw [ht, h4]⟩

/-- C7: an empty `ENDPOINTS` value loads as the empty endpoint sequence, and
`checkEndpoints` over an empty endpoint list returns without error, calls
`testPort` zero times and leaves the gauge as it was. -/
theorem empty_endpoints_noop :
    loadEPFile [] = some [] ∧
    ∀ (p : pConfig) (net : Net) (st : Sys),
      checkEndpoints { p with endpoints := [] } net st = some st := by
  refine ⟨by decide, fun p net st => ?_⟩
  simp [checkEndpoints, checkEndpoints.loop]

/-- C9, on the source as it is: one iteration of the loop of `pollEndpoints`
over a configuration with one endpoint logs and sleeps; `testPort` is not
called and the gauge stays at its value, while `checkEndpoints` on the same
configuration would probe the endpoint and set the gauge to 0.  No number of
iterations, on any configuration, calls `testPort` or changes the gauge. -/
theorem pollEndpoints_does_not_probe :
    pollEndpoints ⟨1, [], [], [], 30, ["127.0.0.1:80".toList]⟩ 1 ⟨1, []⟩ =
      ⟨1, [Event.log "Polling\n".toList, Event.sleep 30000000000]⟩ ∧
    probed (pollEndpoints ⟨1, [], [], [], 30, ["127.0.0.1:80".toList]⟩ 1 ⟨1, []⟩).trace = [] ∧
    (checkEndpoints ⟨1, [], [], [], 30, ["127.0.0.1:80".toList]⟩
        ⟨fun _ _ => some "refused".toList, []⟩ ⟨1, []⟩).map
      (fun st => (st.gauge, probed st.trace)) = some (0, ["127.0.0.1:80".toList]) ∧
    ∀ (p : pConfig) (n : Nat) (st : Sys),
      (pollEndpoints p n st).gauge = st.gauge ∧
      probed (pollEndpoints p n st).trace = probed st.trace := by
  refine ⟨by decide, by decide, by decide, fun p n => ?_⟩
  induction n with
  | zero => intro st; simp [pollEndpoints]
  | succ k ih =>
    intro st
    rw [pollEndpoints]
    obtain ⟨h1, h2⟩ := ih (pollEndpoints.iteration p st)
    rw [h1, h2]
    simp [pollEndpoints.iteration, Sys.emit, probed, List.filterMap_append]
